import Mathlib

/-!
# Oh Hey BooRay simulation engine — shallow embedding

This file embeds the single-trial game engine of the BooRay simulator
(`booray-simulation.py`) into Lean: the 52-card deck, the OG3 hand
evaluator, the draw policy, the trick resolver and the payout
calculation.  Randomness (`np.random.shuffle`) is made explicit: the
functions take the shuffled deck order, and a reshuffle function for
the redraw pool, as parameters.  Fallible operations of the source
(indexing a short list, `list.pop` on an empty list) are modelled with
`Option`.
-/

namespace Booray

/-- Card suits: hearts, diamonds, clubs, spades (`'H','D','C','S'`). -/
inductive Suit where
  | H : Suit
  | D : Suit
  | C : Suit
  | S : Suit
deriving DecidableEq, Repr, Fintype

/-- A card is a pair `(rank, suit)`, rank in `2..14` for real cards. -/
abbrev Card := Nat × Suit

/-- The 52-card deck, in source order:
`[(rank, suit) for rank in range(2,15) for suit in ['H','D','C','S']]`. -/
def deck : List Card :=
  (List.range' 2 13).flatMap fun rank =>
    [Suit.H, Suit.D, Suit.C, Suit.S].map fun suit => (rank, suit)

/-- `evaluate_og3`: classify a 3-card hand into an OG3 category and
payout.  Returns `none` when the hand does not have exactly 3 cards
(the source would raise an `IndexError` there). -/
def evaluate_og3 (hand : List Card) : Option (String × Int) :=
  let ranks := List.insertionSort (fun a b => a ≤ b) (hand.map Prod.fst)
  let suits := hand.map Prod.snd
  match ranks with
  | [r0, r1, r2] =>
    some (
      if suits.dedup.length = 1 ∧ ([r0, r1, r2] : List Nat) = [12, 13, 14] then
        ("Mini Royal", 50)
      else if suits.dedup.length = 1 ∧ r2 - r0 = 2 then
        ("Straight Flush", 40)
      else if ([r0, r1, r2] : List Nat).dedup.length = 1 then
        ("Trips", 30)
      else if r2 - r0 = 2 then
        ("Straight", 6)
      else if suits.dedup.length = 1 then
        ("Flush", 3)
      else if ([r0, r1, r2] : List Nat).dedup.length = 2 then
        ("Pair", 1)
      else
        ("Loss", -1))
  | _ => none

/-- `should_draw`: keep the hand when it holds at least two trump
cards; otherwise flag all non-trump cards of rank below 10 for
exchange. -/
def should_draw (hand : List Card) (trump_suit : Suit) : Bool × List Card :=
  let trump_cards := hand.filter fun card => decide (card.2 = trump_suit)
  if 2 ≤ trump_cards.length then
    (false, [])
  else
    let non_trump := hand.filter fun card => decide (card.2 ≠ trump_suit)
    let low_cards := non_trump.filter fun card => decide (card.1 < 10)
    (decide (0 < low_cards.length), low_cards)

/-- `evaluate_trick`: `true` when the player's card wins the trick. -/
def evaluate_trick (player_card dealer_card : Card) (trump_suit : Suit) : Bool :=
  if player_card.2 = dealer_card.2 then
    decide (dealer_card.1 < player_card.1)
  else if player_card.2 = trump_suit then
    true
  else if dealer_card.2 = trump_suit then
    false
  else
    false

/-- Python's `max(cards, key=lambda x: x[0])`: the first card of
maximal rank; `none` on the empty list. -/
def maxByRank : List Card → Option Card
  | [] => none
  | c :: cs => some (cs.foldl (fun best x => if best.1 < x.1 then x else best) c)

/-- The redraw exchange loop: for each flagged card, remove it from
the hand (`list.remove`: first occurrence) and append the card popped
from the end of the remaining deck.  `none` when the pool is empty at
a pop (the source would raise there). -/
def redraw : List Card → List Card × List Card → Option (List Card × List Card)
  | [], st => some st
  | card :: cards, (hand, rem) =>
    match rem.getLast? with
    | none => none
    | some top => redraw cards (hand.erase card ++ [top], rem.dropLast)

/-- The playable-subset fallback chain of the trick loop: cards of
the led suit, else trump cards, else the whole hand. -/
def choose_playable (hand : List Card) (dealer_card : Card) (trump_suit : Suit) :
    List Card :=
  let playable0 := hand.filter fun card => decide (card.2 = dealer_card.2)
  let playable1 :=
    if playable0 = [] then hand.filter fun card => decide (card.2 = trump_suit)
    else playable0
  if playable1 = [] then hand else playable1

/-- The 3-trick loop: for each dealer card in dealt order the player
plays the highest card of the led suit, else the highest trump, else
the highest card in hand; trump plays are accumulated in the
trump-usage list.  Returns `(tricks_won, used_trump, final_hand)`;
`none` when the player has no card left to play. -/
def play_tricks (trump_suit : Suit) :
    List Card → List Card → Nat → List Card → Option (Nat × List Card × List Card)
  | [], hand, tricks_won, used_trump => some (tricks_won, used_trump, hand)
  | dealer_card :: rest, hand, tricks_won, used_trump =>
    match maxByRank (choose_playable hand dealer_card trump_suit) with
    | none => none
    | some play_card =>
      let hand' := hand.erase play_card
      let used_trump' :=
        if play_card.2 = trump_suit then used_trump ++ [play_card] else used_trump
      let tricks_won' :=
        if evaluate_trick play_card dealer_card trump_suit then tricks_won + 1
        else tricks_won
      play_tricks trump_suit rest hand' tricks_won' used_trump'

/-- The payout block of `play_game` (lines 103-122): sequential
updates of the three wager lines from `tricks_won` and the trump-usage
list, one guarded rebinding per source assignment.  Returns
`(ante_result, booray_result, play_result)`. -/
def payouts (tricks_won : Nat) (used_trump : List Card) : Int × Int × Int :=
  let ante_result : Int := -1
  let booray_result : Int := -1
  let play_result : Int := -1
  let ante_result := if 1 ≤ tricks_won then (1 : Int) else ante_result
  let booray_result := if 1 ≤ tricks_won then (0 : Int) else booray_result
  let play_result := if 1 ≤ tricks_won then (0 : Int) else play_result
  let play_result := if 2 ≤ tricks_won then (1 : Int) else play_result
  let booray_result :=
    if tricks_won = 3 then
      if List.insertionSort (fun a b => a ≤ b) (used_trump.map Prod.fst) = [12, 13, 14] ∧
          (used_trump.map Prod.snd).dedup.length = 1 then
        (500 : Int)
      else if used_trump.length = 3 then (10 : Int)
      else (1 : Int)
    else booray_result
  let play_result := if tricks_won = 3 then (2 : Int) else play_result
  (ante_result, booray_result, play_result)

/-- The data a single trial produces before the payout block and the
result record are built. -/
structure TrialRun where
  og3_type : String
  og3_payout : Int
  tricks_won : Nat
  used_trump : List Card
  initial_hand : List Card
  final_hand : List Card
deriving DecidableEq, Repr

/-- The result record of one trial (the source's `GameResult`). -/
structure GameResult where
  tricks_won : Nat
  used_all_trump : Bool
  used_akq_trump : Bool
  initial_hand : List Card
  final_hand : List Card
  og3_type : String
  og3_payout : Int
  ante_result : Int
  booray_result : Int
  play_result : Int
deriving DecidableEq, Repr

/-- One trial of `play_game` up to (not including) the payout block:
deal the first 3 cards to the player and the next 3 to the dealer,
fix the trump suit as the suit of the dealer's last card, evaluate
OG3 on the initial hand, run the draw policy and the optional redraw,
then play the 3 tricks.  `shuffled` is the shuffled deck; `reshuffle`
is the shuffle applied to the redraw pool. -/
def play_game_core (shuffled : List Card) (reshuffle : List Card → List Card) :
    Option TrialRun :=
  match shuffled with
  | p0 :: p1 :: p2 :: d0 :: d1 :: d2 :: _ =>
    let player_hand : List Card := [p0, p1, p2]
    let dealer_hand : List Card := [d0, d1, d2]
    let trump_suit := d2.2
    let initial_hand := player_hand
    match evaluate_og3 initial_hand with
    | none => none
    | some (og3_type, og3_payout) =>
      let sd := should_draw player_hand trump_suit
      let afterDraw :=
        if sd.1 then
          let remaining_deck :=
            deck.filter fun card => decide (card ∉ player_hand ++ dealer_hand)
          redraw sd.2 (player_hand, reshuffle remaining_deck)
        else
          some (player_hand, [])
      match afterDraw with
      | none => none
      | some (hand1, _) =>
        match play_tricks trump_suit dealer_hand hand1 0 [] with
        | none => none
        | some (tricks_won, used_trump, final_hand) =>
          some {
            og3_type := og3_type
            og3_payout := og3_payout
            tricks_won := tricks_won
            used_trump := used_trump
            initial_hand := initial_hand
            final_hand := final_hand }
  | _ => none

/-- Build the `GameResult` of a trial from its `TrialRun` and the
payout block, as the source's tail of `play_game` (lines 103-135). -/
def buildResult (r : TrialRun) : GameResult :=
  let pr := payouts r.tricks_won r.used_trump
  { tricks_won := r.tricks_won
    used_all_trump := r.used_trump.length == 3
    used_akq_trump :=
      if r.used_trump.length = 3 then
        List.insertionSort (fun a b => a ≤ b) (r.used_trump.map Prod.fst) == [12, 13, 14]
      else false
    initial_hand := r.initial_hand
    final_hand := r.final_hand
    og3_type := r.og3_type
    og3_payout := r.og3_payout
    ante_result := pr.1
    booray_result := pr.2.1
    play_result := pr.2.2 }

/-- `play_game`: one full trial producing a `GameResult`; `none` on
the error paths the source would raise on. -/
def play_game (shuffled : List Card) (reshuffle : List Card → List Card) :
    Option GameResult :=
  (play_game_core shuffled reshuffle).map buildResult

/-! ## Concrete trials used as witnesses and counterexamples -/

/-- Six fixed cards dealt first in the C2 counterexample trial. -/
def c2six : List Card :=
  [(14, Suit.H), (13, Suit.H), (12, Suit.H), (2, Suit.H), (3, Suit.H), (4, Suit.S)]

/-- A full 52-card shuffle starting with `c2six`. -/
def c2shuffle : List Card := c2six ++ deck.filter fun card => decide (card ∉ c2six)

/-- The trial data produced by `play_game_core` on `c2shuffle`: the
player plays no trump card, so the trump-usage list is empty. -/
def c2run : TrialRun :=
  { og3_type := "Mini Royal", og3_payout := 50, tricks_won := 2, used_trump := []
    initial_hand := [(14, Suit.H), (13, Suit.H), (12, Suit.H)], final_hand := [] }

/-- A 6-card deal prefix on which the player wins exactly 2 tricks. -/
def c5shuffle : List Card :=
  [(14, Suit.H), (13, Suit.H), (12, Suit.H), (2, Suit.H), (3, Suit.H), (4, Suit.S)]

/-- The game result of the `c5shuffle` trial. -/
def c5res : GameResult :=
  { tricks_won := 2, used_all_trump := false, used_akq_trump := false
    initial_hand := [(14, Suit.H), (13, Suit.H), (12, Suit.H)], final_hand := []
    og3_type := "Mini Royal", og3_payout := 50
    ante_result := 1, booray_result := 0, play_result := 1 }

/-- A 6-card deal prefix on which the player wins all 3 tricks with
the A, K, Q of the trump suit (hearts). -/
def c6shuffle : List Card :=
  [(14, Suit.H), (13, Suit.H), (12, Suit.H), (2, Suit.C), (3, Suit.D), (4, Suit.H)]

/-- The trial data of the `c6shuffle` trial. -/
def c6run : TrialRun :=
  { og3_type := "Mini Royal", og3_payout := 50, tricks_won := 3
    used_trump := [(14, Suit.H), (13, Suit.H), (12, Suit.H)]
    initial_hand := [(14, Suit.H), (13, Suit.H), (12, Suit.H)], final_hand := [] }

/-- The game result of the `c6shuffle` trial. -/
def c6res : GameResult :=
  { tricks_won := 3, used_all_trump := true, used_akq_trump := true
    initial_hand := [(14, Suit.H), (13, Suit.H), (12, Suit.H)], final_hand := []
    og3_type := "Mini Royal", og3_payout := 50
    ante_result := 1, booray_result := 500, play_result := 2 }

/-- A 6-card deal prefix whose trial performs a 3-card redraw. -/
def c9shuffle : List Card :=
  [(2, Suit.H), (7, Suit.S), (9, Suit.D), (10, Suit.C), (11, Suit.C), (12, Suit.C)]

/-- The game result of the `c9shuffle` trial. -/
def c9res : GameResult :=
  { tricks_won := 1, used_all_trump := false, used_akq_trump := false
    initial_hand := [(2, Suit.H), (7, Suit.S), (9, Suit.D)], final_hand := []
    og3_type := "Loss", og3_payout := -1
    ante_result := 1, booray_result := 0, play_result := 0 }

/-- A 6-card deal prefix on which the player wins all 3 tricks with
the A, K, Q of the trump suit (spades). -/
def c10shuffle : List Card :=
  [(14, Suit.S), (13, Suit.S), (12, Suit.S), (2, Suit.C), (3, Suit.D), (4, Suit.S)]

/-- The game result of the `c10shuffle` trial. -/
def c10res : GameResult :=
  { tricks_won := 3, used_all_trump := true, used_akq_trump := true
    initial_hand := [(14, Suit.S), (13, Suit.S), (12, Suit.S)], final_hand := []
    og3_type := "Mini Royal", og3_payout := 50
    ante_result := 1, booray_result := 500, play_result := 2 }

/-! ## Helper lemmas -/

/-- The fold underlying `maxByRank` stays inside the candidate list. -/
theorem foldl_best_mem : ∀ (cs : List Card) (c : Card),
    cs.foldl (fun best x => if best.1 < x.1 then x else best) c ∈ c :: cs := by
  intro cs
  induction cs with
  | nil => intro c; simp
  | cons x xs ih =>
    intro c
    have h := ih (if c.1 < x.1 then x else c)
    simp only [List.foldl_cons]
    rcases List.mem_cons.1 h with h1 | h1
    · rw [h1]
      by_cases hc : c.1 < x.1 <;> simp [hc]
    · exact List.mem_cons_of_mem _ (List.mem_cons_of_mem _ h1)

/-- A card returned by `maxByRank` is a member of the input list. -/
theorem maxByRank_mem {cs : List Card} {c : Card} (h : maxByRank cs = some c) :
    c ∈ cs := by
  cases cs with
  | nil => simp [maxByRank] at h
  | cons x xs =>
    simp only [maxByRank, Option.some.injEq] at h
    rw [← h]
    exact foldl_best_mem xs x

/-- The playable subset is always a sublist of the hand. -/
theorem choose_playable_sublist (hand : List Card) (dealer_card : Card)
    (trump_suit : Suit) : (choose_playable hand dealer_card trump_suit).Sublist hand := by
  simp only [choose_playable]
  split_ifs <;> first
    | exact List.Sublist.refl _
    | exact List.filter_sublist _

/-- The list of flagged low cards is a sublist of the hand. -/
theorem should_draw_sublist (hand : List Card) (trump_suit : Suit) :
    ((should_draw hand trump_suit).2).Sublist hand := by
  simp only [should_draw]
  split_ifs with h
  · exact List.nil_sublist _
  · exact (List.filter_sublist _).trans (List.filter_sublist _)

/-- Dropping a sublist's head survives erasing it from the larger list. -/
theorem sublist_erase_of_cons_sublist {c : Card} :
    ∀ {cs l : List Card}, (c :: cs).Sublist l → cs.Sublist (l.erase c) := by
  intro cs l
  induction l with
  | nil => intro h; cases h
  | cons x l ih =>
    intro h
    cases h with
    | cons a h =>
      by_cases hx : x = c
      · subst hx
        rw [List.erase_cons_head]
        exact (ih h).trans (List.erase_sublist _ _)
      · rw [List.erase_cons_tail (by simp [hx])]
        exact (ih h).trans (List.sublist_cons_self _ _)
    | cons₂ a h =>
      rw [List.erase_cons_head]
      exact h

/-- `redraw` preserves the size of the player's hand when the flagged
cards form a sublist of the hand. -/
theorem redraw_hand_length :
    ∀ (cs hand rem h' r' : List Card), cs.Sublist hand →
      redraw cs (hand, rem) = some (h', r') → h'.length = hand.length := by
  intro cs
  induction cs with
  | nil =>
    intro hand rem h' r' _ h
    simp only [redraw, Option.some.injEq, Prod.mk.injEq] at h
    rw [← h.1]
  | cons c cs ih =>
    intro hand rem h' r' hsub h
    simp only [redraw] at h
    cases htop : rem.getLast? with
    | none => rw [htop] at h; simp at h
    | some top =>
      rw [htop] at h
      have hc : c ∈ hand := hsub.subset (List.mem_cons_self c cs)
      have hcs : cs.Sublist (hand.erase c ++ [top]) :=
        (sublist_erase_of_cons_sublist hsub).trans (List.sublist_append_left _ _)
      have hlen := ih (hand.erase c ++ [top]) rem.dropLast h' r' hcs h
      have he : (hand.erase c).length = hand.length - 1 := List.length_erase_of_mem hc
      have hpos : 0 < hand.length := List.length_pos.mpr (List.ne_nil_of_mem hc)
      simp only [List.length_append, List.length_cons, List.length_nil] at hlen
      omega

/-- `redraw` consumes exactly one pool card per flagged card. -/
theorem redraw_pool_length :
    ∀ (cs hand rem h' r' : List Card),
      redraw cs (hand, rem) = some (h', r') → r'.length + cs.length = rem.length := by
  intro cs
  induction cs with
  | nil =>
    intro hand rem h' r' h
    simp only [redraw, Option.some.injEq, Prod.mk.injEq] at h
    simp [← h.2]
  | cons c cs ih =>
    intro hand rem h' r' h
    simp only [redraw] at h
    cases htop : rem.getLast? with
    | none => rw [htop] at h; simp at h
    | some top =>
      rw [htop] at h
      have hne : rem ≠ [] := by
        intro hemp; rw [hemp] at htop; simp at htop
      have hlen := ih _ rem.dropLast h' r' h
      have hd : rem.dropLast.length = rem.length - 1 := by
        simp [List.length_dropLast]
      have hpos : 0 < rem.length := List.length_pos.mpr hne
      simp only [List.length_cons]
      omega

/-- `redraw` succeeds whenever the pool is at least as large as the
list of flagged cards. -/
theorem redraw_isSome :
    ∀ (cs hand rem : List Card), cs.length ≤ rem.length →
      ∃ st, redraw cs (hand, rem) = some st := by
  intro cs
  induction cs with
  | nil => intro hand rem _; exact ⟨(hand, rem), rfl⟩
  | cons c cs ih =>
    intro hand rem hle
    simp only [List.length_cons] at hle
    have hne : rem ≠ [] := by
      intro hemp; rw [hemp] at hle; simp at hle
    obtain ⟨top, htop⟩ := Option.isSome_iff_exists.mp (List.getLast?_isSome.mpr hne)
    have hd : rem.dropLast.length = rem.length - 1 := by simp [List.length_dropLast]
    obtain ⟨st, hst⟩ := ih (hand.erase c ++ [top]) rem.dropLast (by omega)
    exact ⟨st, by simp only [redraw, htop]; exact hst⟩

/-- Each trick removes exactly one card from the player's hand. -/
theorem play_tricks_hand_length (trump_suit : Suit) :
    ∀ (ds hand : List Card) (tw : Nat) (ut : List Card) (tw' : Nat) (ut' fh : List Card),
      play_tricks trump_suit ds hand tw ut = some (tw', ut', fh) →
      fh.length + ds.length = hand.length := by
  intro ds
  induction ds with
  | nil =>
    intro hand tw ut tw' ut' fh h
    simp only [play_tricks, Option.some.injEq, Prod.mk.injEq] at h
    simp [← h.2.2]
  | cons dealer_card rest ih =>
    intro hand tw ut tw' ut' fh h
    simp only [play_tricks] at h
    cases hm : maxByRank (choose_playable hand dealer_card trump_suit) with
    | none => rw [hm] at h; simp at h
    | some play_card =>
      rw [hm] at h
      simp only at h
      have hmem : play_card ∈ hand :=
        (choose_playable_sublist hand dealer_card trump_suit).subset (maxByRank_mem hm)
      have hlen := ih _ _ _ _ _ _ h
      have he : (hand.erase play_card).length = hand.length - 1 :=
        List.length_erase_of_mem hmem
      have hpos : 0 < hand.length := List.length_pos.mpr (List.ne_nil_of_mem hmem)
      simp only [List.length_cons]
      omega

/-- Trick count and trump-usage list grow by at most one per trick. -/
theorem play_tricks_bounds (trump_suit : Suit) :
    ∀ (ds hand : List Card) (tw : Nat) (ut : List Card) (tw' : Nat) (ut' fh : List Card),
      play_tricks trump_suit ds hand tw ut = some (tw', ut', fh) →
      tw' ≤ tw + ds.length ∧ ut'.length ≤ ut.length + ds.length := by
  intro ds
  induction ds with
  | nil =>
    intro hand tw ut tw' ut' fh h
    simp only [play_tricks, Option.some.injEq, Prod.mk.injEq] at h
    obtain ⟨h1, h2, _⟩ := h
    simp [← h1, ← h2]
  | cons dealer_card rest ih =>
    intro hand tw ut tw' ut' fh h
    simp only [play_tricks] at h
    cases hm : maxByRank (choose_playable hand dealer_card trump_suit) with
    | none => rw [hm] at h; simp at h
    | some play_card =>
      rw [hm] at h
      simp only at h
      have hb := ih _ _ _ _ _ _ h
      have h1 : (if evaluate_trick play_card dealer_card trump_suit then tw + 1 else tw) ≤
          tw + 1 := by split_ifs <;> omega
      have h2 : (if play_card.2 = trump_suit then ut ++ [play_card] else ut).length ≤
          ut.length + 1 := by split_ifs <;> simp
      simp only [List.length_cons]
      omega

/-- Inversion of a completed trial: a successful `play_game_core`
call decomposes the shuffle into six dealt cards, produces a 3-card
post-redraw hand, and runs the trick loop over the 3 dealer cards. -/
theorem play_game_core_inv (shuffled : List Card) (reshuffle : List Card → List Card)
    (r : TrialRun) (h : play_game_core shuffled reshuffle = some r) :
    ∃ p0 p1 p2 d0 d1 d2 rest hand1,
      shuffled = p0 :: p1 :: p2 :: d0 :: d1 :: d2 :: rest ∧
      hand1.length = 3 ∧
      play_tricks d2.2 [d0, d1, d2] hand1 0 [] =
        some (r.tricks_won, r.used_trump, r.final_hand) := by
  rcases shuffled with _ | ⟨p0, _ | ⟨p1, _ | ⟨p2, _ | ⟨d0, _ | ⟨d1, _ | ⟨d2, rest⟩⟩⟩⟩⟩⟩ <;>
    try (simp only [play_game_core] at h; exact Option.noConfusion h)
  simp only [play_game_core] at h
  rcases hog : evaluate_og3 [p0, p1, p2] with _ | ⟨t, p⟩
  · rw [hog] at h; simp at h
  · rw [hog] at h
    simp only at h
    rcases had : (if (should_draw [p0, p1, p2] d2.2).1 then
        redraw (should_draw [p0, p1, p2] d2.2).2
          ([p0, p1, p2],
            reshuffle (deck.filter fun card =>
              decide (card ∉ [p0, p1, p2] ++ [d0, d1, d2])))
      else some ([p0, p1, p2], [])) with _ | ⟨hand1, pool⟩
    · rw [had] at h; simp at h
    · rw [had] at h
      simp only at h
      have hlen : hand1.length = 3 := by
        rcases hsd : (should_draw [p0, p1, p2] d2.2).1 with _ | _
        · rw [hsd, if_neg (by simp)] at had
          simp only [Option.some.injEq, Prod.mk.injEq] at had
          rw [← had.1]
          rfl
        · rw [hsd, if_pos (by simp)] at had
          exact redraw_hand_length _ _ _ _ _ (should_draw_sublist _ _) had
      rcases hpt : play_tricks d2.2 [d0, d1, d2] hand1 0 [] with _ | ⟨tw, ut, fh⟩
      · rw [hpt] at h; simp at h
      · rw [hpt] at h
        simp only [Option.some.injEq] at h
        exact ⟨p0, p1, p2, d0, d1, d2, rest, hand1, rfl, hlen, by rw [hpt, ← h]⟩

/-- Three naturals whose dedup has two elements contain two equal entries. -/
theorem dedup3_eq_two {x y z : Nat} (h : ([x, y, z] : List Nat).dedup.length = 2) :
    x = y ∨ x = z ∨ y = z := by
  by_contra hc
  push_neg at hc
  obtain ⟨hxy, hxz, hyz⟩ := hc
  rw [List.dedup_cons_of_not_mem (by simp [hxy, hxz]),
      List.dedup_cons_of_not_mem (by simp [hyz])] at h
  simp at h

/-- A three-element suit list with a singleton dedup is constant. -/
theorem suit_dedup_one : ∀ s0 s1 s2 : Suit,
    ([s0, s1, s2] : List Suit).dedup.length = 1 → s0 = s1 ∧ s1 = s2 := by decide

/-! ## Claims -/

/-- C1 counterexample: the hand 5♥ 5♦ 7♣ has exactly two distinct
ranks (a pair), yet `evaluate_og3` classifies it as a Straight with
payout 6 — not as a Pair with payout 1 — because the weak
`r2 - r0 == 2` run test does not require distinct ranks. -/
theorem c1_counterexample :
    (([(5, Suit.H), (5, Suit.D), (7, Suit.C)] : List Card).map Prod.fst).dedup.length = 2 ∧
    evaluate_og3 [(5, Suit.H), (5, Suit.D), (7, Suit.C)] = some ("Straight", 6) ∧
    evaluate_og3 [(5, Suit.H), (5, Suit.D), (7, Suit.C)] ≠ some ("Pair", 1) := by
  refine ⟨by decide, by decide, by decide⟩

/-- C1 (amended): a 3-card hand of pairwise-distinct cards with
exactly two distinct ranks is classified by `evaluate_og3` as a Pair
with payout 1 — unless its extreme sorted ranks differ by exactly 2,
in which case the weak run test fires first and the hand is
classified as a Straight with payout 6. -/
theorem c1_amended (a b c : Card) (hab : a ≠ b) (hac : a ≠ c) (hbc : b ≠ c)
    (r0 r1 r2 : Nat)
    (hs : List.insertionSort (fun x y => x ≤ y) [a.1, b.1, c.1] = [r0, r1, r2])
    (h2 : ([r0, r1, r2] : List Nat).dedup.length = 2) :
    evaluate_og3 [a, b, c] =
      some (if r2 - r0 = 2 then ("Straight", 6) else ("Pair", 1)) := by
  have hperm : ([r0, r1, r2] : List Nat).Perm [a.1, b.1, c.1] := by
    rw [← hs]; exact List.perm_insertionSort _ _
  have hranks2 : ([a.1, b.1, c.1] : List Nat).dedup.length = 2 := by
    rw [← hperm.dedup.length_eq]; exact h2
  have htwo := dedup3_eq_two hranks2
  have hsuit : ¬ ([a.2, b.2, c.2] : List Suit).dedup.length = 1 := by
    intro hone
    have hall := suit_dedup_one a.2 b.2 c.2 hone
    rcases htwo with h | h | h
    · exact hab (Prod.ext_iff.mpr ⟨h, hall.1⟩)
    · exact hac (Prod.ext_iff.mpr ⟨h, hall.1.trans hall.2⟩)
    · exact hbc (Prod.ext_iff.mpr ⟨h, hall.2⟩)
  simp only [evaluate_og3, List.map_cons, List.map_nil, hs]
  rw [if_neg (fun hAnd => hsuit hAnd.1),
      if_neg (fun hAnd => hsuit hAnd.1),
      if_neg (by rw [h2]; decide)]
  by_cases hgap : r2 - r0 = 2
  · rw [if_pos hgap, if_pos hgap]
  · rw [if_neg hgap, if_neg hgap, if_neg hsuit, if_pos h2]

/-- C1 witness: the pair hand 5♥ 5♦ 6♣ (extreme rank gap 1) is
classified as a Pair with payout 1 by the amended rule. -/
theorem c1_witness :
    evaluate_og3 [(5, Suit.H), (5, Suit.D), (6, Suit.C)] =
      some (if 6 - 5 = 2 then ("Straight", 6) else ("Pair", 1)) :=
  c1_amended (5, Suit.H) (5, Suit.D) (6, Suit.C) (by decide) (by decide) (by decide)
    5 5 6 (by decide) (by decide)

/-- C3 counterexample: with trump spades, the hand 2♥ 3♦ 4♣ flags
all three of its cards as low cards, so the number of cards flagged
for exchange is 3, not at most 2. -/
theorem c3_counterexample :
    should_draw [(2, Suit.H), (3, Suit.D), (4, Suit.C)] Suit.S =
      (true, [(2, Suit.H), (3, Suit.D), (4, Suit.C)]) ∧
    ¬ (should_draw [(2, Suit.H), (3, Suit.D), (4, Suit.C)] Suit.S).2.length ≤ 2 := by
  refine ⟨by decide, by decide⟩

/-- C3 (amended): for every 3-card hand and trump suit, a completed
redraw consumes exactly one pool card per flagged low card — the
number of cards exchanged equals the number of flagged low cards —
and that number is at most 3 (0, 1, 2, or 3). -/
theorem c3_amended (hand : List Card) (trump_suit : Suit) (h3 : hand.length = 3)
    (rem h' r' : List Card)
    (hr : redraw (should_draw hand trump_suit).2 (hand, rem) = some (h', r')) :
    (should_draw hand trump_suit).2.length ≤ 3 ∧
    rem.length = r'.length + (should_draw hand trump_suit).2.length := by
  have hsub := should_draw_sublist hand trump_suit
  constructor
  · have := hsub.length_le
    omega
  · exact (redraw_pool_length _ _ _ _ _ hr).symm

/-- C3 witness: hand 2♥ 3♦ A♠ with trump spades flags two low cards,
and the redraw from a two-card pool consumes exactly those two. -/
theorem c3_witness :
    (should_draw [(2, Suit.H), (3, Suit.D), (14, Suit.S)] Suit.S).2.length ≤ 3 ∧
    ([(5, Suit.C), (6, Suit.C)] : List Card).length =
      ([] : List Card).length +
        (should_draw [(2, Suit.H), (3, Suit.D), (14, Suit.S)] Suit.S).2.length :=
  c3_amended [(2, Suit.H), (3, Suit.D), (14, Suit.S)] Suit.S (by decide)
    [(5, Suit.C), (6, Suit.C)] [(14, Suit.S), (6, Suit.C), (5, Suit.C)] [] (by decide)

/-- C4: `evaluate_trick` awards the trick to the player exactly when
the two cards share a suit and the player's rank is higher, or the
suits differ and the player's card is trump; in every other case —
in particular when the player's card is in a suit different from both
the led suit and the trump suit — the dealer wins. -/
theorem c4 (player_card dealer_card : Card) (trump_suit : Suit) :
    (evaluate_trick player_card dealer_card trump_suit = true ↔
      (player_card.2 = dealer_card.2 ∧ dealer_card.1 < player_card.1) ∨
      (player_card.2 ≠ dealer_card.2 ∧ player_card.2 = trump_suit)) ∧
    (player_card.2 ≠ dealer_card.2 → player_card.2 ≠ trump_suit →
      evaluate_trick player_card dealer_card trump_suit = false) := by
  unfold evaluate_trick
  constructor
  · split_ifs with h1 h2 h3 <;> simp_all
  · intro hd ht
    split_ifs <;> simp_all

/-- C7: `should_draw` returns no-draw with an empty exchange list
whenever the hand holds at least 2 trump cards; otherwise it returns
exactly the list of non-trump cards of rank below 10 as the cards to
exchange, with the draw flag set exactly when that list is nonempty
(so no-draw when it is empty even though the trump count is below 2). -/
theorem c7 (hand : List Card) (trump_suit : Suit) :
    should_draw hand trump_suit =
      if 2 ≤ (hand.filter fun card => decide (card.2 = trump_suit)).length then
        (false, [])
      else
        (decide ((hand.filter fun card => decide (card.2 ≠ trump_suit ∧ card.1 < 10)) ≠ []),
         hand.filter fun card => decide (card.2 ≠ trump_suit ∧ card.1 < 10)) := by
  have hff : (hand.filter fun card => decide (card.2 ≠ trump_suit)).filter
      (fun card => decide (card.1 < 10)) =
      hand.filter fun card => decide (card.2 ≠ trump_suit ∧ card.1 < 10) := by
    rw [List.filter_filter]
    apply List.filter_congr
    intro card _
    by_cases h1 : card.2 = trump_suit <;> by_cases h2 : card.1 < 10 <;> simp [h1, h2]
  simp only [should_draw]
  split_ifs with h
  · rfl
  · rw [hff]
    refine Prod.ext_iff.mpr ⟨?_, rfl⟩
    exact decide_eq_decide.mpr List.length_pos

/-- C2 counterexample: a full-deck trial in which the player plays no
trump card at all, so the trump-usage list accumulated during trick
play has 0 entries, not 3. -/
theorem c2_counterexample :
    c2shuffle.Perm deck ∧
    play_game_core c2shuffle id = some c2run ∧
    c2run.used_trump.length ≠ 3 := by
  refine ⟨by decide, by decide, by decide⟩

/-- C2 (amended): after every completed trial, `tricks_won` is in
`{0,1,2,3}`, and the trump-usage list has at most 3 entries — one per
trump card played, which may be fewer than the 3 tricks. -/
theorem c2_amended (shuffled : List Card) (reshuffle : List Card → List Card)
    (r : TrialRun) (h : play_game_core shuffled reshuffle = some r) :
    (r.tricks_won = 0 ∨ r.tricks_won = 1 ∨ r.tricks_won = 2 ∨ r.tricks_won = 3) ∧
    r.used_trump.length ≤ 3 := by
  obtain ⟨p0, p1, p2, d0, d1, d2, rest, hand1, hshape, hlen, hpt⟩ :=
    play_game_core_inv shuffled reshuffle r h
  have hb := play_tricks_bounds _ _ _ _ _ _ _ _ hpt
  simp only [List.length_cons, List.length_nil] at hb
  omega

/-- C2 witness: the amended bounds hold on the `c2shuffle` trial. -/
theorem c2_witness :
    (c2run.tricks_won = 0 ∨ c2run.tricks_won = 1 ∨ c2run.tricks_won = 2 ∨
      c2run.tricks_won = 3) ∧
    c2run.used_trump.length ≤ 3 :=
  c2_amended c2shuffle id c2run (by decide)

/-- C5: in every completed trial, 0 tricks pays ante −1, booray −1,
play −1; exactly 1 trick pays ante +1, booray 0, play 0; exactly 2
tricks pays ante +1, booray 0, play +1. -/
theorem c5 (shuffled : List Card) (reshuffle : List Card → List Card)
    (res : GameResult) (h : play_game shuffled reshuffle = some res) :
    (res.tricks_won = 0 →
      res.ante_result = -1 ∧ res.booray_result = -1 ∧ res.play_result = -1) ∧
    (res.tricks_won = 1 →
      res.ante_result = 1 ∧ res.booray_result = 0 ∧ res.play_result = 0) ∧
    (res.tricks_won = 2 →
      res.ante_result = 1 ∧ res.booray_result = 0 ∧ res.play_result = 1) := by
  simp only [play_game, Option.map_eq_some'] at h
  obtain ⟨r, hc, hb⟩ := h
  subst hb
  refine ⟨?_, ?_, ?_⟩ <;> intro htw <;>
    simp only [buildResult] at htw ⊢ <;> rw [htw] <;> simp [payouts]

/-- C5 witness: the 2-trick trial `c5shuffle` pays ante +1, booray 0
(push), play +1. -/
theorem c5_witness :
    c5res.ante_result = 1 ∧ c5res.booray_result = 0 ∧ c5res.play_result = 1 :=
  (c5 c5shuffle id c5res (by decide)).2.2 (by decide)

/-- C6: in every completed trial with 3 tricks won, ante pays +1 and
play pays +2; booray pays +500 when the played trump cards are
exactly ranks 12, 13, 14 of one suit, +10 when all three played cards
are trump but not the AKQ-one-suit case, and +1 otherwise. -/
theorem c6 (shuffled : List Card) (reshuffle : List Card → List Card)
    (r : TrialRun) (res : GameResult)
    (hc : play_game_core shuffled reshuffle = some r)
    (hg : play_game shuffled reshuffle = some res)
    (h3 : r.tricks_won = 3) :
    res.ante_result = 1 ∧ res.play_result = 2 ∧
    res.booray_result =
      (if List.insertionSort (fun x y => x ≤ y) (r.used_trump.map Prod.fst) =
            [12, 13, 14] ∧ (r.used_trump.map Prod.snd).dedup.length = 1 then 500
       else if r.used_trump.length = 3 then 10
       else 1) := by
  rw [play_game, hc] at hg
  simp only [Option.map_some', Option.some.injEq] at hg
  subst hg
  simp only [buildResult]
  rw [h3]
  simp [payouts]

/-- C6 witness: on the AKQ-of-trump trial `c6shuffle` the payouts are
ante +1, play +2, booray +500. -/
theorem c6_witness :
    c6res.ante_result = 1 ∧ c6res.play_result = 2 ∧
    c6res.booray_result =
      (if List.insertionSort (fun x y => x ≤ y) (c6run.used_trump.map Prod.fst) =
            [12, 13, 14] ∧ (c6run.used_trump.map Prod.snd).dedup.length = 1 then 500
       else if c6run.used_trump.length = 3 then 10
       else 1) :=
  c6 c6shuffle id c6run c6res (by decide) (by decide) (by decide)

/-- C8: with a genuinely shuffled deck, the redraw pool built by
`play_game` consists of exactly the 46 cards not dealt to the player
or dealer — disjoint from the six dealt cards, their union being the
full deck — so the pop performed for each exchanged card always
succeeds: depletion is unreachable. -/
theorem c8 (p0 p1 p2 d0 d1 d2 : Card) (rest : List Card)
    (reshuffle : List Card → List Card)
    (hperm : (p0 :: p1 :: p2 :: d0 :: d1 :: d2 :: rest).Perm deck)
    (hre : ∀ l, (reshuffle l).Perm l) :
    (deck.filter fun card => decide (card ∉ [p0, p1, p2] ++ [d0, d1, d2])).length = 46 ∧
    (∀ card,
      card ∈ deck.filter (fun card => decide (card ∉ [p0, p1, p2] ++ [d0, d1, d2])) →
      card ∉ [p0, p1, p2] ++ [d0, d1, d2]) ∧
    (∀ card, card ∈ deck →
      card ∈ deck.filter (fun card => decide (card ∉ [p0, p1, p2] ++ [d0, d1, d2])) ∨
      card ∈ [p0, p1, p2] ++ [d0, d1, d2]) ∧
    ∃ st, redraw (should_draw [p0, p1, p2] d2.2).2
        ([p0, p1, p2],
          reshuffle (deck.filter fun card =>
            decide (card ∉ [p0, p1, p2] ++ [d0, d1, d2]))) = some st := by
  have hnodup : ((([p0, p1, p2] ++ [d0, d1, d2]) ++ rest) : List Card).Nodup := by
    have : (p0 :: p1 :: p2 :: d0 :: d1 :: d2 :: rest : List Card) =
        ([p0, p1, p2] ++ [d0, d1, d2]) ++ rest := rfl
    rw [← this]
    exact hperm.nodup_iff.mpr (by decide)
  obtain ⟨hnd_dealt, hnd_rest, hdisj⟩ := List.nodup_append.mp hnodup
  have h2 : (([p0, p1, p2] ++ [d0, d1, d2]) ++ rest).filter
      (fun card => decide (card ∉ [p0, p1, p2] ++ [d0, d1, d2])) = rest := by
    rw [List.filter_append]
    have hd0 : (([p0, p1, p2] ++ [d0, d1, d2]) : List Card).filter
        (fun card => decide (card ∉ [p0, p1, p2] ++ [d0, d1, d2])) = [] :=
      List.filter_eq_nil_iff.mpr (fun a ha => by
        simp only [decide_eq_true_eq]
        exact not_not_intro ha)
    have hr0 : rest.filter
        (fun card => decide (card ∉ [p0, p1, p2] ++ [d0, d1, d2])) = rest :=
      List.filter_eq_self.mpr (fun a ha => decide_eq_true (hdisj.symm ha))
    rw [hd0, hr0, List.nil_append]
  have hfp : (deck.filter fun card =>
      decide (card ∉ [p0, p1, p2] ++ [d0, d1, d2])).Perm rest := by
    have h1 := hperm.symm.filter
      (fun card => decide (card ∉ [p0, p1, p2] ++ [d0, d1, d2]))
    rw [show (p0 :: p1 :: p2 :: d0 :: d1 :: d2 :: rest : List Card) =
        ([p0, p1, p2] ++ [d0, d1, d2]) ++ rest from rfl, h2] at h1
    exact h1
  have hrest46 : rest.length = 46 := by
    have hl := hperm.length_eq
    have hdl : deck.length = 52 := by decide
    simp only [List.length_cons, hdl] at hl
    omega
  have hlen46 : (deck.filter fun card =>
      decide (card ∉ [p0, p1, p2] ++ [d0, d1, d2])).length = 46 := by
    rw [hfp.length_eq, hrest46]
  refine ⟨hlen46, ?_, ?_, ?_⟩
  · intro card hmem
    exact of_decide_eq_true (List.mem_filter.mp hmem).2
  · intro card hcard
    by_cases hd : card ∈ [p0, p1, p2] ++ [d0, d1, d2]
    · exact Or.inr hd
    · exact Or.inl (List.mem_filter.mpr ⟨hcard, decide_eq_true hd⟩)
  · have hflag : (should_draw [p0, p1, p2] d2.2).2.length ≤ 3 := by
      have := (should_draw_sublist [p0, p1, p2] d2.2).length_le
      simpa using this
    have hpool : (reshuffle (deck.filter fun card =>
        decide (card ∉ [p0, p1, p2] ++ [d0, d1, d2]))).length = 46 := by
      rw [(hre _).length_eq, hlen46]
    exact redraw_isSome _ _ _ (by omega)

/-- C8 witness: dealing the first six cards of the unshuffled deck
leaves a 46-card redraw pool. -/
theorem c8_witness :
    (deck.filter fun card =>
      decide (card ∉ ([(2, Suit.H), (2, Suit.D), (2, Suit.C)] : List Card) ++
        [(2, Suit.S), (3, Suit.H), (3, Suit.D)])).length = 46 :=
  (c8 (2, Suit.H) (2, Suit.D) (2, Suit.C) (2, Suit.S) (3, Suit.H) (3, Suit.D)
    (deck.drop 6) id (by decide) (fun l => List.Perm.refl l)).1

/-- C9: the player plays exactly one card per trick, so the
`final_hand` field of every completed trial's result is empty. -/
theorem c9 (shuffled : List Card) (reshuffle : List Card → List Card)
    (res : GameResult) (h : play_game shuffled reshuffle = some res) :
    res.final_hand = [] := by
  simp only [play_game, Option.map_eq_some'] at h
  obtain ⟨r, hc, hb⟩ := h
  subst hb
  obtain ⟨p0, p1, p2, d0, d1, d2, rest, hand1, hshape, hlen, hpt⟩ :=
    play_game_core_inv shuffled reshuffle r hc
  have hfin := play_tricks_hand_length _ _ _ _ _ _ _ _ hpt
  simp only [List.length_cons, List.length_nil] at hfin
  simp only [buildResult]
  have hz : r.final_hand.length = 0 := by omega
  exact List.length_eq_zero.mp hz

/-- C9 witness: the `c9shuffle` trial (which performs a 3-card
redraw) ends with an empty final hand. -/
theorem c9_witness : c9res.final_hand = [] :=
  c9 c9shuffle id c9res (by decide)

/-- C10: in every completed trial's result, `used_akq_trump` implies
`used_all_trump`: the AKQ flag is defined as false unless exactly 3
trump cards were played. -/
theorem c10 (shuffled : List Card) (reshuffle : List Card → List Card)
    (res : GameResult) (h : play_game shuffled reshuffle = some res)
    (hq : res.used_akq_trump = true) : res.used_all_trump = true := by
  simp only [play_game, Option.map_eq_some'] at h
  obtain ⟨r, hc, hb⟩ := h
  subst hb
  simp only [buildResult] at hq ⊢
  by_cases hl : r.used_trump.length = 3
  · simp [hl]
  · rw [if_neg hl] at hq
    simp at hq

/-- C10 witness: the AKQ-of-spades trial `c10shuffle` sets both
flags. -/
theorem c10_witness : c10res.used_all_trump = true :=
  c10 c10shuffle id c10res (by decide) (by decide)

end Booray
